import Mathlib

/-!
Verification of `src/utils/env.py` (SemanticClustering): filesystem and HDF5
I/O helpers.  The Python functions are shallowly embedded:

* directory paths are lists of path components; the filesystem visible to
  `make_dir` is a pair of lists (existing directories, existing plain files);
* `pathlib.Path.glob` is modelled by an executable glob matcher on file names
  (`*`, `?`, character classes `[...]`/`[!...]` with ranges, literal
  characters; unlike the `glob` module, `Path.glob` has no special rule for
  leading dots, and none is modelled), and a directory listing is
  `Option (List String)` (`none` = the directory does not exist, in which
  case `glob` yields nothing);
* an HDF5 container is an association list from names to entries, an entry
  being either a dataset (its array data, modelled as `List Int`, plus the
  compression codec it was stored with) or a group; a filesystem of containers
  is an association list from file paths to containers.
-/

namespace Env

/-! ## Filesystem model for `make_dir` -/

/-- Filesystem as seen by `make_dir`: which directories and which plain
files exist.  Paths are lists of components. -/
structure DirFS where
  dirs : List (List String)
  files : List (List String)
deriving DecidableEq, Repr

/-- All non-empty prefixes of a path: the path itself and every intermediate
directory that `mkdir(parents=True)` would have to create. -/
def ancestors (p : List String) : List (List String) :=
  (List.range p.length).map (fun i => p.take (i + 1))

/-- Embedding of `make_dir` (env.py line 18): `Path(str).mkdir(parents=True,
exist_ok=True)`.  Creates every missing ancestor directory; succeeds silently
when the directory already exists; raises `FileExistsError` when the path or
one of its ancestors exists as a plain file. -/
def make_dir (fs : DirFS) (p : List String) : Except String DirFS :=
  if ∀ q ∈ ancestors p, q ∉ fs.files then
    Except.ok { fs with dirs := fs.dirs ++ (ancestors p).filter (fun q => decide (q ∉ fs.dirs)) }
  else
    Except.error "FileExistsError"

/-- Well-formed filesystem: the set of directories is closed under taking
ancestors, and no path is both a directory and a plain file. -/
def DirFS.wf (fs : DirFS) : Prop :=
  (∀ p ∈ fs.dirs, ∀ q ∈ ancestors p, q ∈ fs.dirs) ∧ ∀ p ∈ fs.dirs, p ∉ fs.files

/-! ## Glob matching and `fetch_files` -/

/-- Scan the remainder of a character class up to its closing bracket:
returns the body and the rest of the pattern, or `none` when the class is
never closed. -/
def findClose : List Char → Option (List Char × List Char)
  | [] => none
  | ']' :: rest => some ([], rest)
  | c :: rest =>
    match findClose rest with
    | some (body, rest') => some (c :: body, rest')
    | none => none

/-- Parse a character class directly after its opening bracket, following
`fnmatch.translate`: an optional leading `!` negates the class, a closing
bracket in first body position is a literal member, and the body runs to
the next closing bracket.  `none` when no closing bracket exists (the
opening bracket then matches only itself). -/
def classSplit (ps : List Char) : Option (Bool × List Char × List Char) :=
  match ps with
  | '!' :: ']' :: t =>
    match findClose t with
    | some (body, rest) => some (true, ']' :: body, rest)
    | none => none
  | '!' :: t =>
    match findClose t with
    | some (body, rest) => some (true, body, rest)
    | none => none
  | ']' :: t =>
    match findClose t with
    | some (body, rest) => some (false, ']' :: body, rest)
    | none => none
  | t =>
    match findClose t with
    | some (body, rest) => some (false, body, rest)
    | none => none

/-- Membership of a character in a class body: `a-b` denotes an inclusive
code-point range, any other character denotes itself; a trailing dash is a
literal dash. -/
def matchClass : List Char → Char → Bool
  | [], _ => false
  | a :: '-' :: b :: rest, c =>
    (decide (a ≤ c) && decide (c ≤ b)) || matchClass rest c
  | a :: rest, c => (a == c) || matchClass rest c

/-- Glob matching of a pattern against a file name: `*` matches any
(possibly empty) run of characters (equivalently, the rest of the pattern
matches some suffix of the name), `?` any single character, `[...]` any
class member (`[!...]` any non-member), anything else only itself.  The
fuel argument only makes the recursion structural: every recursive call
consumes one unit of fuel and at least one pattern character, so the
`length + 1` units supplied by `globMatch` can never run out. -/
def globMatchF : Nat → List Char → List Char → Bool
  | 0, _, _ => false
  | _ + 1, [], s => s.isEmpty
  | fuel + 1, '*' :: ps, s => s.tails.any (fun t => globMatchF fuel ps t)
  | fuel + 1, '?' :: ps, s =>
    match s with
    | [] => false
    | _ :: cs => globMatchF fuel ps cs
  | fuel + 1, '[' :: ps, s =>
    match classSplit ps with
    | some (neg, body, rest) =>
      match s with
      | [] => false
      | c :: cs => (matchClass body c != neg) && globMatchF fuel rest cs
    | none =>
      match s with
      | [] => false
      | c :: cs => ('[' == c) && globMatchF fuel ps cs
  | fuel + 1, p :: ps, s =>
    match s with
    | [] => false
    | c :: cs => (p == c) && globMatchF fuel ps cs

/-- Glob matching with enough fuel for the whole pattern. -/
def globMatch (p s : List Char) : Bool := globMatchF (p.length + 1) p s

/-- Lexicographic order on paths, the order `sorted` uses: pointwise on the
underlying character sequences. -/
def pathLe (a b : String) : Prop := a.data ≤ b.data

instance : DecidableRel pathLe :=
  fun a b => inferInstanceAs (Decidable (a.data ≤ b.data))

instance : IsTotal String pathLe :=
  ⟨fun a b => le_total a.data b.data⟩

instance : IsTrans String pathLe :=
  ⟨fun _ _ _ h₁ h₂ => le_trans h₁ h₂⟩

/-- Glob matching as done by `pathlib.Path.glob` on a single path
component.  Unlike the `glob` module, `Path.glob` gives file names that
start with a dot no special treatment: `*` matches them too. -/
def fnmatch (pattern name : String) : Bool :=
  globMatch pattern.toList name.toList

/-- Embedding of `fetch_files` (env.py line 28):
`sorted(Path(directory).glob(pattern))`.  The directory listing is `none`
when the directory does not exist; `Path.glob` then yields nothing rather
than raising, so the function never fails. -/
def fetch_files (pattern : String) (directory : Option (List String)) :
    Except String (List String) :=
  Except.ok (((directory.getD []).filter (fun n => fnmatch pattern n)).insertionSort pathLe)

/-! ## HDF5 container model -/

/-- Errors raised by the HDF5 helpers.  `missingKeys` carries the list of
requested-but-absent keys and the file path, mirroring
`ValueError(f"Keys \x7bmissing_keys\x7d not found in file \x7bfile_path\x7d")`. -/
inductive Err where
  | missingKeys (keys : List String) (path : String)
  | typeErr (key : String)
  | keyErr (key : String)
deriving DecidableEq, Repr

/-- A top-level entry of an HDF5 container: a dataset (its array data and the
compression codec it was created with) or a group. -/
inductive Entry where
  | dset (data : List Int) (compression : Option String)
  | group
deriving DecidableEq, Repr

/-- `True` exactly on datasets. -/
def Entry.isDset : Entry → Bool
  | Entry.dset _ _ => true
  | Entry.group => false

/-- The in-memory array `e[:]` materialises to (only meaningful on datasets). -/
def Entry.arr : Entry → List Int
  | Entry.dset d _ => d
  | Entry.group => []

/-- An HDF5 container: association list from top-level names to entries. -/
abbrev H5Obj := List (String × Entry)

/-- The container's top-level keys, `f.keys()`. -/
def H5Obj.keys (f : H5Obj) : List String := f.map Prod.fst

/-- Materialise `\x7bkey: f[key][:] for key in keys\x7d`: look each key up and
copy the dataset's array out; slicing a group raises `TypeError`. -/
def readAll (f : H5Obj) : List String → Except Err (List (String × List Int))
  | [] => Except.ok []
  | k :: ks =>
    match f.lookup k with
    | some (Entry.dset d _) =>
      match readAll f ks with
      | Except.ok r => Except.ok ((k, d) :: r)
      | Except.error e => Except.error e
    | some Entry.group => Except.error (Err.typeErr k)
    | none => Except.error (Err.keyErr k)

/-- Embedding of `open_hdf5` (env.py line 45): opens the container read-only,
takes the requested keys to be `args` when non-empty and all of `f.keys()`
otherwise, raises on `missing_keys = set(keys) - set(f.keys())` being
non-empty, and otherwise returns the fully materialised mapping. -/
def open_hdf5 (file_path : String) (f : H5Obj) (args : List String) :
    Except Err (List (String × List Int)) :=
  let keys := if args = [] then H5Obj.keys f else args
  let missing := keys.filter (fun k => decide (k ∉ H5Obj.keys f))
  if missing = [] then readAll f keys
  else Except.error (Err.missingKeys missing file_path)

/-- Embedding of `save_h5` (env.py line 92): `if col in h5: del h5[col]`,
then `h5.create_dataset(col, data=data, compression=compression)` (the
Python default for `compression` is `"gzip"`; callers here pass it
explicitly). -/
def save_h5 (h5 : H5Obj) (col : String) (data : List Int)
    (compression : Option String) : H5Obj :=
  (if (h5.lookup col).isSome then h5.filter (fun e => decide (e.1 ≠ col)) else h5)
    ++ [(col, Entry.dset data compression)]

/-- The on-disk filesystem of HDF5 container files: association list from
file paths to container contents. -/
abbrev H5FS := List (String × H5Obj)

/-- Embedding of `make_h5` (env.py line 66): `mode = "a" if Path(file).exists()
else "w"`, then `h5py.File(file, mode)`.  Append mode opens the existing
contents unchanged; write mode creates a fresh empty container on disk.
Returns the filesystem after the call and the opened handle's contents. -/
def make_h5 (fs : H5FS) (file : String) : H5FS × H5Obj :=
  match fs.lookup file with
  | some f => (fs, f)
  | none => ((file, []) :: fs, [])

/-- Persist an open handle's contents back to the filesystem (the flush h5py
performs on close): replace the first entry for `file`, or add one. -/
def H5FS.store : H5FS → String → H5Obj → H5FS
  | [], file, h5 => [(file, h5)]
  | e :: t, file, h5 =>
    if e.1 = file then (file, h5) :: t else e :: H5FS.store t file h5

/-- Embedding of `h5.require_group(method)`: return the existing group of
that name, raise `TypeError` if the name is taken by a dataset, create the
group when absent. -/
def require_group (h5 : H5Obj) (method : String) : Except Err (H5Obj × String) :=
  match h5.lookup method with
  | some Entry.group => Except.ok (h5, method)
  | some (Entry.dset _ _) => Except.error (Err.typeErr method)
  | none => Except.ok (h5 ++ [(method, Entry.group)], method)

/-- Embedding of `get_h5_object` (env.py line 79): `h5 = make_h5(file)` then
`return h5.require_group(method)`.  Returns the filesystem after the call
(the opened file with the group ensured) and the name of the returned
group handle. -/
def get_h5_object (fs : H5FS) (file : String) (method : String) :
    Except Err (H5FS × String) :=
  match require_group (make_h5 fs file).2 method with
  | Except.ok q => Except.ok (H5FS.store (make_h5 fs file).1 file q.1, q.2)
  | Except.error e => Except.error e

/-! ## Helper lemmas: `make_dir` -/

theorem mem_ancestors_self (p : List String) (hp : p ≠ []) : p ∈ ancestors p := by
  have hlen : 0 < p.length := List.length_pos.mpr hp
  have h1 : p.length - 1 < p.length := by omega
  refine List.mem_map.mpr ⟨p.length - 1, List.mem_range.mpr h1, ?_⟩
  rw [Nat.sub_add_cancel hlen, List.take_length]

theorem mem_dirs_after (fs : DirFS) (p : List String) :
    ∀ q ∈ ancestors p,
      q ∈ fs.dirs ++ (ancestors p).filter (fun q => decide (q ∉ fs.dirs)) := by
  intro q hq
  by_cases h : q ∈ fs.dirs
  · exact List.mem_append_left _ h
  · have hd : decide (q ∉ fs.dirs) = true := by simpa using h
    exact List.mem_append_right _ (List.mem_filter.mpr ⟨hq, hd⟩)

theorem filter_not_mem_eq_nil (l : List (List String)) (d : List (List String))
    (h : ∀ q ∈ l, q ∈ d) : l.filter (fun q => decide (q ∉ d)) = [] := by
  refine List.eq_nil_iff_forall_not_mem.mpr fun q hq => ?_
  rcases List.mem_filter.mp hq with ⟨hql, hqd⟩
  have hnot : q ∉ d := by simpa using hqd
  exact hnot (h q hql)

/-! ## C8: `make_dir` -/

/-- C8: `make_dir` creates all missing intermediate directories, so the
requested directory `p` exists afterwards and every previously existing
directory is still there; calling it again on the result returns the result
unchanged (idempotence); and on a well-formed filesystem where `p` already
exists as a directory it is a no-op that raises no error. -/
theorem make_dir_spec (fs : DirFS) (p : List String) (hp : p ≠ []) :
    (∀ fs', make_dir fs p = Except.ok fs' →
      p ∈ fs'.dirs ∧ (∀ q ∈ fs.dirs, q ∈ fs'.dirs) ∧ make_dir fs' p = Except.ok fs') ∧
    (fs.wf → p ∈ fs.dirs → make_dir fs p = Except.ok fs) := by
  constructor
  · intro fs' hok
    simp only [make_dir] at hok
    by_cases hcond : ∀ q ∈ ancestors p, q ∉ fs.files
    · rw [if_pos hcond] at hok
      injection hok with hfs'
      have hdirs' : fs'.dirs =
          fs.dirs ++ (ancestors p).filter (fun q => decide (q ∉ fs.dirs)) := by
        rw [← hfs']
      have hfiles' : fs'.files = fs.files := by rw [← hfs']
      have hanc : ∀ q ∈ ancestors p, q ∈ fs'.dirs := by
        rw [hdirs']; exact mem_dirs_after fs p
      refine ⟨hanc p (mem_ancestors_self p hp), ?_, ?_⟩
      · intro q hq
        rw [hdirs']
        exact List.mem_append_left _ hq
      · have hcond' : ∀ q ∈ ancestors p, q ∉ fs'.files := by
          rw [hfiles']; exact hcond
        have hfe : (ancestors p).filter (fun q => decide (q ∉ fs'.dirs)) = [] :=
          filter_not_mem_eq_nil _ _ hanc
        simp only [make_dir, if_pos hcond', hfe, List.append_nil]
    · rw [if_neg hcond] at hok
      exact absurd hok (by simp)
  · intro hwf hmem
    obtain ⟨hclosed, hdisj⟩ := hwf
    have hanc : ∀ q ∈ ancestors p, q ∈ fs.dirs := hclosed p hmem
    have hcond : ∀ q ∈ ancestors p, q ∉ fs.files := fun q hq => hdisj q (hanc q hq)
    have hfe : (ancestors p).filter (fun q => decide (q ∉ fs.dirs)) = [] :=
      filter_not_mem_eq_nil _ _ hanc
    simp only [make_dir, if_pos hcond, hfe, List.append_nil]

/-- Witness for `make_dir_spec`: on a filesystem already containing the
directory `["a", "b"]` and its parent, `make_dir` is a no-op. -/
theorem make_dir_spec_witness :
    make_dir ⟨[["a"], ["a", "b"]], []⟩ ["a", "b"] =
      Except.ok ⟨[["a"], ["a", "b"]], []⟩ :=
  (make_dir_spec ⟨[["a"], ["a", "b"]], []⟩ ["a", "b"] (by decide)).2
    (by constructor <;> decide) (by decide)

/-! ## C7 and C3: `fetch_files` -/

/-- C7: on an existing directory, `fetch_files` never fails and returns the
list of exactly those entries whose name matches the glob pattern, sorted in
ascending lexicographic order; in particular on a directory holding
`a.txt`, `b.csv`, `c.txt` the pattern `*.txt` yields `[a.txt, c.txt]`. -/
theorem fetch_files_spec :
    (∀ pattern entries, ∃ l, fetch_files pattern (some entries) = Except.ok l ∧
      l.Sorted pathLe ∧ ∀ x, x ∈ l ↔ x ∈ entries ∧ fnmatch pattern x = true) ∧
    fetch_files "*.txt" (some ["a.txt", "b.csv", "c.txt"]) =
      Except.ok ["a.txt", "c.txt"] := by
  constructor
  · intro pattern entries
    refine ⟨_, rfl, List.sorted_insertionSort _ _, fun x => ?_⟩
    rw [List.mem_insertionSort, List.mem_filter]
    exact Iff.rfl
  · simp only [fetch_files, Except.ok.injEq]
    decide

/-- Counterexample to C3 as stated: `fetch_files` on a directory that does
not exist returns an empty result instead of failing with an error. -/
theorem fetch_files_no_error :
    fetch_files "*" none = Except.ok [] := rfl

/-- C3 (amended): for every pattern, `fetch_files` on a non-existent
directory raises no error and returns the empty list (`Path.glob` simply
yields nothing when the directory is missing). -/
theorem fetch_files_missing_dir (pattern : String) :
    fetch_files pattern none = Except.ok [] := rfl

/-! ## Helper lemmas: association-list lookup -/

theorem lookup_cons {β : Type} (e : String × β) (t : List (String × β)) (k : String) :
    (e :: t).lookup k = if k = e.1 then some e.2 else t.lookup k := by
  rcases e with ⟨a, b⟩
  by_cases h : k = a
  · simp [List.lookup, h]
  · have hb : (k == a) = false := by simpa using h
    simp [List.lookup, hb, h]

theorem lookup_filter_ne_self {β : Type} (l : List (String × β)) (col : String) :
    (l.filter (fun e => decide (e.1 ≠ col))).lookup col = none := by
  induction l with
  | nil => rfl
  | cons e t ih =>
    rw [List.filter_cons]
    by_cases h : e.1 = col
    · have hd : ¬ decide (e.1 ≠ col) = true := by simp [h]
      rw [if_neg hd]
      exact ih
    · have hd : decide (e.1 ≠ col) = true := by simp [h]
      have hce : ¬ col = e.1 := fun hc => h hc.symm
      rw [if_pos hd, lookup_cons, if_neg hce]
      exact ih

theorem lookup_filter_ne_other {β : Type} (l : List (String × β)) (col k : String)
    (hk : k ≠ col) :
    (l.filter (fun e => decide (e.1 ≠ col))).lookup k = l.lookup k := by
  induction l with
  | nil => rfl
  | cons e t ih =>
    rw [List.filter_cons]
    by_cases h : e.1 = col
    · have hd : ¬ decide (e.1 ≠ col) = true := by simp [h]
      have hke : ¬ k = e.1 := by rw [h]; exact hk
      rw [if_neg hd, lookup_cons, if_neg hke]
      exact ih
    · have hd : decide (e.1 ≠ col) = true := by simp [h]
      rw [if_pos hd, lookup_cons, lookup_cons]
      by_cases hke : k = e.1
      · rw [if_pos hke, if_pos hke]
      · rw [if_neg hke, if_neg hke]
        exact ih

theorem lookup_append_none {β : Type} (l₁ l₂ : List (String × β)) (k : String)
    (h : l₁.lookup k = none) : (l₁ ++ l₂).lookup k = l₂.lookup k := by
  induction l₁ with
  | nil => rfl
  | cons e t ih =>
    rw [lookup_cons] at h
    by_cases hke : k = e.1
    · rw [if_pos hke] at h
      exact absurd h (by simp)
    · rw [if_neg hke] at h
      rw [List.cons_append, lookup_cons, if_neg hke]
      exact ih h

theorem lookup_append_some {β : Type} (l₁ l₂ : List (String × β)) (k : String) (v : β)
    (h : l₁.lookup k = some v) : (l₁ ++ l₂).lookup k = some v := by
  induction l₁ with
  | nil => exact absurd h (by simp [List.lookup])
  | cons e t ih =>
    rw [lookup_cons] at h
    rw [List.cons_append, lookup_cons]
    by_cases hke : k = e.1
    · rw [if_pos hke] at h
      rw [if_pos hke]
      exact h
    · rw [if_neg hke] at h
      rw [if_neg hke]
      exact ih h

theorem lookup_none_iff {β : Type} (l : List (String × β)) (k : String) :
    l.lookup k = none ↔ k ∉ l.map Prod.fst := by
  induction l with
  | nil => simp [List.lookup]
  | cons e t ih =>
    rw [lookup_cons]
    by_cases hke : k = e.1
    · rw [if_pos hke]
      simp [hke]
    · rw [if_neg hke]
      simp only [List.map_cons, List.mem_cons]
      rw [ih]
      constructor
      · intro hnot hor
        exact hor.elim hke hnot
      · intro hnot hmem
        exact hnot (Or.inr hmem)

/-! ## Helper lemmas: `save_h5`, `H5FS.store`, `readAll` -/

theorem lookup_append_tail {β : Type} (l₁ l₂ : List (String × β)) (k : String)
    (h : l₂.lookup k = none) : (l₁ ++ l₂).lookup k = l₁.lookup k := by
  induction l₁ with
  | nil => exact h
  | cons e t ih =>
    rw [List.cons_append, lookup_cons, lookup_cons]
    by_cases hke : k = e.1
    · rw [if_pos hke, if_pos hke]
    · rw [if_neg hke, if_neg hke]
      exact ih

theorem save_pre_lookup (h5 : H5Obj) (col : String) :
    (if (h5.lookup col).isSome then h5.filter (fun e => decide (e.1 ≠ col)) else h5).lookup col
      = none := by
  by_cases h : (h5.lookup col).isSome
  · rw [if_pos h]
    exact lookup_filter_ne_self h5 col
  · rw [if_neg h]
    exact Option.not_isSome_iff_eq_none.mp h

theorem save_lookup_same (h5 : H5Obj) (col : String) (data : List Int) (c : Option String) :
    (save_h5 h5 col data c).lookup col = some (Entry.dset data c) := by
  unfold save_h5
  rw [lookup_append_none _ _ _ (save_pre_lookup h5 col), lookup_cons, if_pos rfl]

theorem save_lookup_other (h5 : H5Obj) (col : String) (data : List Int) (c : Option String)
    (k : String) (hk : k ≠ col) :
    (save_h5 h5 col data c).lookup k = h5.lookup k := by
  unfold save_h5
  have hsing : ([(col, Entry.dset data c)] : H5Obj).lookup k = none := by
    rw [lookup_cons, if_neg hk]
    rfl
  rw [lookup_append_tail _ _ _ hsing]
  by_cases h : (h5.lookup col).isSome
  · rw [if_pos h]
    exact lookup_filter_ne_other h5 col k hk
  · rw [if_neg h]

theorem save_count_one (h5 : H5Obj) (col : String) (data : List Int) (c : Option String) :
    ((save_h5 h5 col data c).map Prod.fst).count col = 1 := by
  unfold save_h5
  rw [List.map_append, List.count_append]
  have h0 : ((if (h5.lookup col).isSome then h5.filter (fun e => decide (e.1 ≠ col))
      else h5).map Prod.fst).count col = 0 := by
    rw [List.count_eq_zero]
    exact (lookup_none_iff _ col).mp (save_pre_lookup h5 col)
  rw [h0]
  simp

theorem store_lookup (fs : H5FS) (file : String) (c : H5Obj) :
    (H5FS.store fs file c).lookup file = some c := by
  induction fs with
  | nil =>
    unfold H5FS.store
    rw [lookup_cons, if_pos rfl]
  | cons e t ih =>
    unfold H5FS.store
    by_cases h : e.1 = file
    · rw [if_pos h, lookup_cons, if_pos rfl]
    · have hfe : ¬ file = e.1 := fun hc => h hc.symm
      rw [if_neg h, lookup_cons, if_neg hfe]
      exact ih

theorem store_eq_self (fs : H5FS) (file : String) (c : H5Obj)
    (h : fs.lookup file = some c) : H5FS.store fs file c = fs := by
  induction fs with
  | nil => exact absurd h (by simp [List.lookup])
  | cons e t ih =>
    rcases e with ⟨a, b⟩
    rw [lookup_cons] at h
    by_cases hke : file = a
    · rw [if_pos hke] at h
      injection h with hbc
      unfold H5FS.store
      rw [if_pos hke.symm, hke, ← hbc]
    · rw [if_neg hke] at h
      unfold H5FS.store
      have hne : ¬ a = file := fun hc => hke hc.symm
      rw [if_neg hne, ih h]

theorem readAll_cons_not_mem (a : String) (e : Entry) (t : H5Obj) (ks : List String)
    (h : a ∉ ks) : readAll ((a, e) :: t) ks = readAll t ks := by
  induction ks with
  | nil => rfl
  | cons k ks ih =>
    rw [List.mem_cons] at h
    push_neg at h
    have hka : ¬ k = a := fun hc => h.1 hc.symm
    have hl : ((a, e) :: t).lookup k = t.lookup k := by
      rw [lookup_cons, if_neg hka]
    simp only [readAll, hl, ih h.2]

theorem readAll_keys (f : H5Obj) (hnd : (f.map Prod.fst).Nodup)
    (hdata : ∀ p ∈ f, p.2.isDset = true) :
    readAll f (f.map Prod.fst) = Except.ok (f.map fun p => (p.1, p.2.arr)) := by
  induction f with
  | nil => rfl
  | cons e t ih =>
    rcases e with ⟨a, ea⟩
    rw [List.map_cons, List.nodup_cons] at hnd
    obtain ⟨ha, hndt⟩ := hnd
    obtain ⟨d, c, rfl⟩ : ∃ d c, ea = Entry.dset d c := by
      have hds := hdata (a, ea) (List.mem_cons_self _ _)
      cases ea with
      | dset d c => exact ⟨d, c, rfl⟩
      | group => exact absurd hds (by simp [Entry.isDset])
    have hl : ((a, Entry.dset d c) :: t).lookup a = some (Entry.dset d c) := by
      rw [lookup_cons, if_pos rfl]
    have hrest : readAll ((a, Entry.dset d c) :: t) (t.map Prod.fst) =
        readAll t (t.map Prod.fst) := readAll_cons_not_mem a _ t _ ha
    have hres : readAll t (t.map Prod.fst) = Except.ok (t.map fun p => (p.1, p.2.arr)) :=
      ih hndt (fun p hp => hdata p (List.mem_cons_of_mem _ hp))
    rw [List.map_cons]
    simp only [readAll, hl, hrest, hres]
    rfl

theorem readAll_single (f : H5Obj) (k : String) (d : List Int) (c : Option String)
    (h : f.lookup k = some (Entry.dset d c)) : readAll f [k] = Except.ok [(k, d)] := by
  simp only [readAll, h]

/-! ## C1 and C6: `open_hdf5` -/

/-- C1: when at least one explicitly requested key is absent from the
container's top-level keys, `open_hdf5` fails with an error carrying
exactly the set of missing keys (requested minus available) and the file
path, and no dataset value is returned (the result is the error, not a
partial mapping). -/
theorem open_hdf5_missing_keys (path : String) (f : H5Obj) (args : List String)
    (k : String) (hk : k ∈ args) (hmiss : k ∉ H5Obj.keys f) :
    ∃ missing, open_hdf5 path f args = Except.error (Err.missingKeys missing path) ∧
      k ∈ missing ∧ ∀ m, m ∈ missing ↔ m ∈ args ∧ m ∉ H5Obj.keys f := by
  have hargs : args ≠ [] := List.ne_nil_of_mem hk
  have hdm : decide (k ∉ H5Obj.keys f) = true := by simpa using hmiss
  have hmem : k ∈ args.filter (fun k => decide (k ∉ H5Obj.keys f)) :=
    List.mem_filter.mpr ⟨hk, hdm⟩
  have hne : args.filter (fun k => decide (k ∉ H5Obj.keys f)) ≠ [] :=
    List.ne_nil_of_mem hmem
  refine ⟨args.filter (fun k => decide (k ∉ H5Obj.keys f)), ?_, hmem, ?_⟩
  · simp only [open_hdf5, if_neg hargs, if_neg hne]
  · intro m
    rw [List.mem_filter]
    simp

/-- Witness for `open_hdf5_missing_keys`: requesting keys `x` and `z` from a
container holding only `x` fails naming `z` and the path. -/
theorem open_hdf5_missing_keys_witness :
    ∃ missing,
      open_hdf5 "d.h5" [("x", Entry.dset [1] none)] ["x", "z"] =
        Except.error (Err.missingKeys missing "d.h5") ∧
      "z" ∈ missing ∧
      ∀ m, m ∈ missing ↔ m ∈ ["x", "z"] ∧ m ∉ H5Obj.keys [("x", Entry.dset [1] none)] :=
  open_hdf5_missing_keys "d.h5" [("x", Entry.dset [1] none)] ["x", "z"] "z"
    (by decide) (by decide)

/-- C6: with no explicit keys, `open_hdf5` requests the container's full set
of top-level keys and returns the mapping that sends each key to its
dataset's fully materialised array value. -/
theorem open_hdf5_default_keys (path : String) (f : H5Obj)
    (hnd : (H5Obj.keys f).Nodup) (hdata : ∀ p ∈ f, p.2.isDset = true) :
    open_hdf5 path f [] = Except.ok (f.map fun p => (p.1, p.2.arr)) := by
  have hm : (H5Obj.keys f).filter (fun k => decide (k ∉ H5Obj.keys f)) = [] := by
    refine List.eq_nil_iff_forall_not_mem.mpr fun q hq => ?_
    rcases List.mem_filter.mp hq with ⟨hq1, hq2⟩
    have hq3 : q ∉ H5Obj.keys f := by simpa using hq2
    exact hq3 hq1
  simp only [open_hdf5]
  rw [if_pos True.intro, if_pos hm]
  exact readAll_keys f hnd hdata

/-- Witness for `open_hdf5_default_keys`: a container with keys `x`, `y` is
read back whole. -/
theorem open_hdf5_default_keys_witness :
    open_hdf5 "d.h5" [("x", Entry.dset [1, 2] (some "gzip")), ("y", Entry.dset [3] none)] [] =
      Except.ok [("x", [1, 2]), ("y", [3])] :=
  open_hdf5_default_keys "d.h5"
    [("x", Entry.dset [1, 2] (some "gzip")), ("y", Entry.dset [3] none)]
    (by decide) (by decide)

/-! ## C2, C10 and C5: `save_h5` -/

/-- C2: `save_h5` replaces: after a write, exactly one entry named `col`
exists and it holds the given data with the requested codec; writing `x`
with `[1,2,3]`, rewriting it with `[4,5]` and reading `x` back yields
`[4,5]` — a full replace, not an append. -/
theorem save_h5_replace :
    (∀ h5 col data c, (save_h5 h5 col data c).lookup col = some (Entry.dset data c) ∧
      ((save_h5 h5 col data c).map Prod.fst).count col = 1) ∧
    open_hdf5 "d.h5" (save_h5 (save_h5 [] "x" [1, 2, 3] (some "gzip")) "x" [4, 5] (some "gzip"))
        ["x"] = Except.ok [("x", [4, 5])] := by
  constructor
  · intro h5 col data c
    exact ⟨save_lookup_same h5 col data c, save_count_one h5 col data c⟩
  · rfl

/-- C10 (frame property): a write to `col` leaves the value visible under
every other key unchanged. -/
theorem save_h5_frame (h5 : H5Obj) (col : String) (data : List Int) (c : Option String)
    (k : String) (hk : k ≠ col) :
    (save_h5 h5 col data c).lookup k = h5.lookup k :=
  save_lookup_other h5 col data c k hk

/-- Witness for `save_h5_frame`: writing `x` does not disturb `y`. -/
theorem save_h5_frame_witness :
    (save_h5 [("y", Entry.dset [7] none)] "x" [1] (some "gzip")).lookup "y" =
      [("y", Entry.dset [7] none)].lookup "y" :=
  save_h5_frame [("y", Entry.dset [7] none)] "x" [1] (some "gzip") "y" (by decide)

/-- C5 (round-trip): writing array `A` under `col` with the default `gzip`
codec and reading `col` back yields exactly `A`. -/
theorem save_open_roundtrip (path : String) (h5 : H5Obj) (col : String) (A : List Int) :
    open_hdf5 path (save_h5 h5 col A (some "gzip")) [col] = Except.ok [(col, A)] := by
  have hl := save_lookup_same h5 col A (some "gzip")
  have hcols : [col] ≠ ([] : List String) := by simp
  have hmem : col ∈ H5Obj.keys (save_h5 h5 col A (some "gzip")) := by
    by_contra hnm
    have hnone := (lookup_none_iff (save_h5 h5 col A (some "gzip")) col).mpr hnm
    rw [hnone] at hl
    cases hl
  have hfil : ([col].filter
      (fun k => decide (k ∉ H5Obj.keys (save_h5 h5 col A (some "gzip"))))) = [] := by
    simp [hmem]
  simp only [open_hdf5, if_neg hcols, if_pos hfil]
  exact readAll_single _ col A (some "gzip") hl

/-! ## C4: `make_h5` -/

/-- C4: `make_h5` opens an existing file in append mode, preserving its
contents and the filesystem; creates a fresh empty container when the file
is absent; leaves the file existing afterwards in both cases; and reopening
after persisted writes returns exactly the persisted contents (no
truncation). -/
theorem make_h5_spec (fs : H5FS) (file : String) :
    (∀ c, fs.lookup file = some c → make_h5 fs file = (fs, c)) ∧
    (fs.lookup file = none → make_h5 fs file = ((file, []) :: fs, [])) ∧
    ((make_h5 fs file).1.lookup file).isSome = true ∧
    (∀ h5, make_h5 (H5FS.store (make_h5 fs file).1 file h5) file =
      (H5FS.store (make_h5 fs file).1 file h5, h5)) := by
  refine ⟨?_, ?_, ?_, ?_⟩
  · intro c hc
    unfold make_h5
    rw [hc]
  · intro hc
    unfold make_h5
    rw [hc]
  · unfold make_h5
    cases hc : fs.lookup file with
    | some f => simp [hc]
    | none => simp [lookup_cons]
  · intro h5
    set X := (make_h5 fs file).1 with hX
    have hst := store_lookup X file h5
    unfold make_h5
    rw [hst]

/-- Witness for `make_h5_spec`: opening an existing file returns its
contents unchanged. -/
theorem make_h5_spec_witness :
    make_h5 [("a.h5", [("x", Entry.dset [1] none)])] "a.h5" =
      ([("a.h5", [("x", Entry.dset [1] none)])], [("x", Entry.dset [1] none)]) :=
  (make_h5_spec [("a.h5", [("x", Entry.dset [1] none)])] "a.h5").1 _ rfl

/-! ## C9: `get_h5_object` -/

theorem store_head (a : String) (b : H5Obj) (t : H5FS) (h5 : H5Obj) :
    H5FS.store ((a, b) :: t) a h5 = (a, h5) :: t := by
  unfold H5FS.store
  rw [if_pos rfl]

theorem get_h5_none (fs : H5FS) (file method : String)
    (hmk : fs.lookup file = none) :
    get_h5_object fs file method =
      Except.ok ((file, [(method, Entry.group)]) :: fs, method) := by
  have hmake : make_h5 fs file = ((file, []) :: fs, []) := by
    unfold make_h5
    rw [hmk]
  have hreq : require_group ([] : H5Obj) method =
      Except.ok ([(method, Entry.group)], method) := rfl
  unfold get_h5_object
  rw [hmake]
  dsimp only
  rw [hreq]
  dsimp only
  rw [store_head]

theorem get_h5_group (fs : H5FS) (file method : String) (f : H5Obj)
    (hmk : fs.lookup file = some f) (hg : f.lookup method = some Entry.group) :
    get_h5_object fs file method = Except.ok (fs, method) := by
  have hmake : make_h5 fs file = (fs, f) := by
    unfold make_h5
    rw [hmk]
  have hreq : require_group f method = Except.ok (f, method) := by
    unfold require_group
    rw [hg]
  unfold get_h5_object
  rw [hmake]
  dsimp only
  rw [hreq]
  dsimp only
  rw [store_eq_self fs file f hmk]

theorem get_h5_absent (fs : H5FS) (file method : String) (f : H5Obj)
    (hmk : fs.lookup file = some f) (hg : f.lookup method = none) :
    get_h5_object fs file method =
      Except.ok (H5FS.store fs file (f ++ [(method, Entry.group)]), method) := by
  have hmake : make_h5 fs file = (fs, f) := by
    unfold make_h5
    rw [hmk]
  have hreq : require_group f method =
      Except.ok (f ++ [(method, Entry.group)], method) := by
    unfold require_group
    rw [hg]
  unfold get_h5_object
  rw [hmake]
  dsimp only
  rw [hreq]

theorem get_h5_dset (fs : H5FS) (file method : String) (f : H5Obj)
    (d : List Int) (c : Option String)
    (hmk : fs.lookup file = some f) (hg : f.lookup method = some (Entry.dset d c)) :
    get_h5_object fs file method = Except.error (Err.typeErr method) := by
  have hmake : make_h5 fs file = (fs, f) := by
    unfold make_h5
    rw [hmk]
  have hreq : require_group f method = Except.error (Err.typeErr method) := by
    unfold require_group
    rw [hg]
  unfold get_h5_object
  rw [hmake]
  dsimp only
  rw [hreq]

/-- C9: `get_h5_object` takes a file path (not an open handle); a successful
call leaves the container file existing on disk (created if it was absent)
with a group of the requested name under its root (created if absent), and
the returned handle is that group's name; calling it again with the same
path and name changes nothing and returns the same group. -/
theorem get_h5_object_spec (fs : H5FS) (file method : String) (fs' : H5FS) (g : String)
    (h : get_h5_object fs file method = Except.ok (fs', g)) :
    g = method ∧
    (∃ c, fs'.lookup file = some c ∧ c.lookup method = some Entry.group) ∧
    get_h5_object fs' file method = Except.ok (fs', g) := by
  cases hmk : fs.lookup file with
  | none =>
    rw [get_h5_none fs file method hmk, Except.ok.injEq, Prod.mk.injEq] at h
    obtain ⟨hfs', hg'⟩ := h
    subst hfs'
    subst hg'
    have hlf : ((file, [(method, Entry.group)]) :: fs).lookup file =
        some [(method, Entry.group)] := by
      rw [lookup_cons, if_pos rfl]
    have hlm : ([(method, Entry.group)] : H5Obj).lookup method = some Entry.group := by
      rw [lookup_cons, if_pos rfl]
    exact ⟨rfl, ⟨[(method, Entry.group)], hlf, hlm⟩,
      get_h5_group _ file method _ hlf hlm⟩
  | some f =>
    cases hg : f.lookup method with
    | none =>
      rw [get_h5_absent fs file method f hmk hg, Except.ok.injEq, Prod.mk.injEq] at h
      obtain ⟨hfs', hg'⟩ := h
      subst hfs'
      subst hg'
      have hlf : (H5FS.store fs file (f ++ [(method, Entry.group)])).lookup file =
          some (f ++ [(method, Entry.group)]) := store_lookup fs file _
      have hlm : (f ++ [(method, Entry.group)]).lookup method = some Entry.group := by
        rw [lookup_append_none _ _ _ hg, lookup_cons, if_pos rfl]
      exact ⟨rfl, ⟨f ++ [(method, Entry.group)], hlf, hlm⟩,
        get_h5_group _ file method _ hlf hlm⟩
    | some e =>
      cases e with
      | dset d c =>
        rw [get_h5_dset fs file method f d c hmk hg] at h
        cases h
      | group =>
        rw [get_h5_group fs file method f hmk hg, Except.ok.injEq, Prod.mk.injEq] at h
        obtain ⟨hfs', hg'⟩ := h
        subst hfs'
        subst hg'
        exact ⟨rfl, ⟨f, hmk, hg⟩, get_h5_group _ file method _ hmk hg⟩

/-- Witness for `get_h5_object_spec`: resolving group `emb` in a fresh file
creates the file and the group; the call is then stable. -/
theorem get_h5_object_spec_witness :
    "emb" = "emb" ∧
    (∃ c, ([("a.h5", [("emb", Entry.group)])] : H5FS).lookup "a.h5" = some c ∧
      c.lookup "emb" = some Entry.group) ∧
    get_h5_object [("a.h5", [("emb", Entry.group)])] "a.h5" "emb" =
      Except.ok ([("a.h5", [("emb", Entry.group)])], "emb") :=
  get_h5_object_spec [] "a.h5" "emb" [("a.h5", [("emb", Entry.group)])] "emb" rfl

end Env
